import Mathlib

/-!
Verification development for a visual-note pipeline: per-unit stage machine,
text splitting, structure extraction with fallback, deterministic prompt
synthesis, image rendering with retry, and a chunked batch scheduler.
The definitions below are a shallow embedding of the TypeScript source
(`processLeftBrain`, `processSplitBrain`, `processRightBrain`, `processHand`,
`updateNote`, the batch handlers, and the data model of `types.ts`).
External services (the generative calls, `fetch`) are modelled as explicit
outcome parameters; the JavaScript platform primitives the code relies on
(`JSON.parse`, `String.prototype.trim`, `toLowerCase`, `replace`, `includes`,
UTF-16 `length`) are modelled as executable Lean functions.
-/

/-- Number of UTF-16 code units a character occupies (JavaScript `length`
counts code units; characters above the BMP count as 2). -/
def utf16Units (c : Char) : Nat := if c.val < 65536 then 1 else 2

/-- UTF-16 length of a list of characters. -/
def utf16LenL (l : List Char) : Nat := (l.map utf16Units).sum

/-- UTF-16 length of a string, as JavaScript `s.length` computes it. -/
def utf16Len (s : String) : Nat := utf16LenL s.data

/-- The character class JavaScript `String.prototype.trim` removes:
WhiteSpace and LineTerminator code points. -/
def jsWhitespace (c : Char) : Bool :=
  c == ' ' || c == '\t' || c == '\n' || c == '\r' || c == '\x0b' || c == '\x0c' ||
  c.val == 0xa0 || c.val == 0x1680 || (0x2000 ≤ c.val && c.val ≤ 0x200a) ||
  c.val == 0x2028 || c.val == 0x2029 || c.val == 0x202f || c.val == 0x205f ||
  c.val == 0x3000 || c.val == 0xfeff

/-- Model of JavaScript `s.trim()`: strip `jsWhitespace` from both ends. -/
def jsTrim (s : String) : String :=
  ⟨((s.data.dropWhile jsWhitespace).reverse.dropWhile jsWhitespace).reverse⟩

/-- Model of JavaScript `toLowerCase` restricted to the ASCII letters the
source compares (model identifiers and code-fence markers are ASCII). -/
def jsToLower (s : String) : String := ⟨s.data.map Char.toLower⟩

/-- Does `l` start with pattern `pat`, case-insensitively when `ci` is true? -/
def startsWithPat (ci : Bool) : List Char → List Char → Bool
  | [], _ => true
  | _ :: _, [] => false
  | p :: ps, c :: cs =>
    (if ci then p.toLower == c.toLower else p == c) && startsWithPat ci ps cs

/-- Remove every (left-to-right, non-overlapping) occurrence of `pat`,
as JavaScript `s.replace(/pat/g, '')` does; `ci` adds the `i` flag. -/
def removeAllPat (ci : Bool) (pat : List Char) : Nat → List Char → List Char
  | 0, s => s
  | _ + 1, [] => []
  | fuel + 1, c :: cs =>
    if pat ≠ [] && startsWithPat ci pat (c :: cs) then
      removeAllPat ci pat fuel ((c :: cs).drop pat.length)
    else
      c :: removeAllPat ci pat fuel cs

/-- Model of JavaScript global replace-with-empty (`s.replace(/pat/g, '')`). -/
def jsRemoveAll (ci : Bool) (pat : String) (s : String) : String :=
  ⟨removeAllPat ci pat.data s.data.length s.data⟩

/-- Model of JavaScript `hay.includes(pat)`. -/
def strIncludes (hay pat : String) : Bool := includesAux pat.data hay.data
where
  includesAux (pat : List Char) : List Char → Bool
    | [] => pat.isEmpty
    | c :: rest => startsWithPat false pat (c :: rest) || includesAux pat rest

/-! JSON values and a model of the platform `JSON.parse`. Numbers keep their
source token (no claim inspects numeric values); `\u` escapes that denote
surrogate halves are not modelled (no claim exercises them). -/

/-- A parsed JSON value. -/
inductive Json where
  | null
  | bool (b : Bool)
  | num (tok : String)
  | str (s : String)
  | arr (elems : List Json)
  | obj (fields : List (String × Json))

/-- Skip JSON whitespace. -/
def skipWs (l : List Char) : List Char :=
  l.dropWhile (fun c => c == ' ' || c == '\t' || c == '\n' || c == '\r')

/-- Value of one hexadecimal digit, by code point ranges. -/
def hexDigit (c : Char) : Option Nat :=
  let n := c.toNat
  if 48 ≤ n && n ≤ 57 then some (n - 48)
  else if 97 ≤ n && n ≤ 102 then some (n - 87)
  else if 65 ≤ n && n ≤ 70 then some (n - 55)
  else none

/-- Parse four hex digits. -/
def parseHex4 (l : List Char) : Option (Nat × List Char) :=
  match l with
  | a :: b :: c :: d :: rest =>
    match hexDigit a, hexDigit b, hexDigit c, hexDigit d with
    | some x, some y, some z, some w => some (((x * 16 + y) * 16 + z) * 16 + w, rest)
    | _, _, _, _ => none
  | _ => none

/-- Parse the body of a JSON string literal (after the opening quote),
returning the decoded characters and the remainder after the closing quote. -/
def parseStrBody : Nat → List Char → Option (List Char × List Char)
  | 0, _ => none
  | _ + 1, [] => none
  | fuel + 1, c :: cs =>
    if c == '"' then some ([], cs)
    else if c == '\\' then
      match cs with
      | [] => none
      | e :: cs2 =>
        let cont := fun (ch : Char) (rest : List Char) =>
          (parseStrBody fuel rest).map (fun p => (ch :: p.1, p.2))
        if e == '"' then cont '"' cs2
        else if e == '\\' then cont '\\' cs2
        else if e == '/' then cont '/' cs2
        else if e == 'b' then cont '\x08' cs2
        else if e == 'f' then cont '\x0c' cs2
        else if e == 'n' then cont '\n' cs2
        else if e == 'r' then cont '\r' cs2
        else if e == 't' then cont '\t' cs2
        else if e == 'u' then
          match parseHex4 cs2 with
          | none => none
          | some (n, r) =>
            if n < 0xd800 || (0xe000 ≤ n && n < 0x110000) then cont (Char.ofNat n) r
            else none
        else none
    else if c.val < 32 then none
    else (parseStrBody fuel cs).map (fun p => (c :: p.1, p.2))

/-- Parse a JSON number token (sign, integer part, fraction, exponent). -/
def parseNumTok (l : List Char) : Option (List Char × List Char) :=
  let signed := fun (r : List Char × List Char) => r
  let core := fun (l1 : List Char) (sign : List Char) =>
    match l1 with
    | [] => none
    | c :: cs =>
      if c == '0' then
        some (sign ++ [c], cs)
      else if c.isDigit then
        let ds := cs.takeWhile Char.isDigit
        some (sign ++ c :: ds, cs.drop ds.length)
      else none
  let withInt :=
    match l with
    | '-' :: rest => core rest ['-']
    | _ => core l []
  match withInt with
  | none => none
  | some (tok1, r1) =>
    let fracced :=
      match r1 with
      | '.' :: rest =>
        let ds := rest.takeWhile Char.isDigit
        if ds.isEmpty then none
        else some (tok1 ++ '.' :: ds, rest.drop ds.length)
      | _ => some (tok1, r1)
    match fracced with
    | none => none
    | some (tok2, r2) =>
      match r2 with
      | e :: rest =>
        if e == 'e' || e == 'E' then
          let ⟨sgn, rest2⟩ : List Char × List Char :=
            match rest with
            | '+' :: rr => (['+'], rr)
            | '-' :: rr => (['-'], rr)
            | _ => ([], rest)
          let ds := rest2.takeWhile Char.isDigit
          if ds.isEmpty then none
          else some (tok2 ++ e :: (sgn ++ ds), rest2.drop ds.length)
        else some (tok2, r2)
      | [] => signed (tok2, r2)

mutual

/-- Parse one JSON value. -/
def parseVal : Nat → List Char → Option (Json × List Char)
  | 0, _ => none
  | fuel + 1, l =>
    match skipWs l with
    | [] => none
    | c :: cs =>
      if c == '"' then
        (parseStrBody fuel cs).map (fun p => (Json.str ⟨p.1⟩, p.2))
      else if c == '[' then
        match skipWs cs with
        | ']' :: r => some (Json.arr [], r)
        | l2 => (parseElems fuel l2).map (fun p => (Json.arr p.1, p.2))
      else if c == '{' then
        match skipWs cs with
        | '}' :: r => some (Json.obj [], r)
        | l2 => (parseMembers fuel l2).map (fun p => (Json.obj p.1, p.2))
      else if c == 't' then
        if startsWithPat false "true".data (c :: cs) then
          some (Json.bool true, (c :: cs).drop 4)
        else none
      else if c == 'f' then
        if startsWithPat false "false".data (c :: cs) then
          some (Json.bool false, (c :: cs).drop 5)
        else none
      else if c == 'n' then
        if startsWithPat false "null".data (c :: cs) then
          some (Json.null, (c :: cs).drop 4)
        else none
      else if c == '-' || c.isDigit then
        (parseNumTok (c :: cs)).map (fun p => (Json.num ⟨p.1⟩, p.2))
      else none

/-- Parse the (nonempty) element list of a JSON array, consuming `]`. -/
def parseElems : Nat → List Char → Option (List Json × List Char)
  | 0, _ => none
  | fuel + 1, l =>
    (parseVal fuel l).bind fun p =>
      match skipWs p.2 with
      | ',' :: r2 => (parseElems fuel r2).map (fun q => (p.1 :: q.1, q.2))
      | ']' :: r2 => some ([p.1], r2)
      | _ => none

/-- Parse the (nonempty) member list of a JSON object, consuming the brace. -/
def parseMembers : Nat → List Char → Option (List (String × Json) × List Char)
  | 0, _ => none
  | fuel + 1, l =>
    match skipWs l with
    | '"' :: cs =>
      (parseStrBody fuel cs).bind fun pk =>
        match skipWs pk.2 with
        | ':' :: r2 =>
          (parseVal fuel r2).bind fun pv =>
            match skipWs pv.2 with
            | ',' :: r4 => (parseMembers fuel r4).map (fun q => ((⟨pk.1⟩, pv.1) :: q.1, q.2))
            | '}' :: r4 => some ([(⟨pk.1⟩, pv.1)], r4)
            | _ => none
        | _ => none
    | _ => none

end

/-- Model of the platform `JSON.parse`: parse one value, require only
whitespace to remain, return `none` where `JSON.parse` throws. -/
def jsonParse (s : String) : Option Json :=
  match parseVal (s.data.length + 16) s.data with
  | some (v, r) => if (skipWs r).isEmpty then some v else none
  | none => none

/-! Data model, from `types.ts` and the store usage in the main module. -/

/-- One `heading`/`content` module of a structured outline (`ContentModule`). -/
structure ContentModule where
  id : String
  heading : String
  content : String
deriving DecidableEq

/-- A structured outline (`LeftBrainData`). Fields the external service left
undefined are modelled as the empty string, which JavaScript's `||` defaulting
treats identically to `undefined`. -/
structure LeftBrainData where
  title : String
  summary_context : String
  visual_theme_keywords : String
  modules : List ContentModule
deriving DecidableEq

/-- Session style settings (`VisualSettings`). An empty `colorTheme` models
the absent/falsy theme. -/
structure VisualSettings where
  styleId : String
  colorTheme : String
  watermark : String
deriving DecidableEq

/-- The per-unit stage machine (`Stage` enum, including the batch stages the
main module uses). -/
inductive Stage where
  | Input
  | Splitting
  | ReviewSplit
  | BatchProcessing
  | Organizing
  | ReviewStructure
  | Designing
  | ReviewPrompt
  | Painting
  | Done
deriving DecidableEq

/-- One independently progressing work item (`NoteUnit`). The source field
`structure` is a Lean keyword and is embedded as `struct`. Optional fields
are `none` when the JavaScript field is undefined. -/
structure NoteUnit where
  id : String
  order : Nat
  originalText : String
  stage : Stage
  isProcessing : Bool
  struct : Option LeftBrainData
  generatedPrompt : Option String
  finalImage : Option String
  error : Option String
deriving DecidableEq

/-- Style catalogue entry (elements of the `STYLES` table). -/
structure StyleInfo where
  id : String
  name : String
  emoji : String
  desc : String
deriving DecidableEq

/-- First entry of `STYLES` (`STYLES[0]`), the default style. -/
def healingStyle : StyleInfo :=
  ⟨"healing", "可爱手帐 (Cute Journal)", "📒",
   "Hand-drawn grid paper background, pastel markers, dense text notes, cute stickers, kawaii aesthetic, study note style"⟩

/-- The style table `STYLES` from the source. -/
def STYLES : List StyleInfo :=
  [healingStyle,
   ⟨"tech", "极客蓝图 (Tech Blueprint)", "📟",
    "Dark blue blueprint background, neon cyan lines, dense data visualization, holographic UI elements, futuristic technical schematic"⟩,
   ⟨"retro", "复古海报 (Retro Poster)", "📰",
    "Vintage paper texture, bold typography, densely packed layout, pop art halftone patterns, collage style, infographic poster"⟩,
   ⟨"zen", "新中式 (Zen Ink)", "🎋",
    "White rice paper texture, minimalist ink wash painting, black calligraphy, vertical layout, red seal, intellectual aesthetic"⟩,
   ⟨"clay", "3D粘土 (3D Clay)", "🧸",
    "3D rendered claymorphism, plasticine texture, soft lighting, rounded edges, playful toy-like look, flat text labels on clay surfaces"⟩]

/-! Outcomes of the external text-completion capability. `success` carries
`res.text`, which the SDK may leave undefined; `failure` is a rejected call
(transport/timeout error). -/

/-- Outcome of one `ai.models.generateContent` text call. -/
inductive GenResult where
  | failure (e : String)
  | success (text : Option String)

/-- The fence-stripping step of the parsing contract:
`res.text.replace(/```json/gi, '').replace(/```/g, '').trim()`. -/
def fenceStrip (t : String) : String :=
  jsTrim (jsRemoveAll false "```" (jsRemoveAll true "```json" t))

/-- `res.text?.…trim() || dflt`: undefined text or an empty stripped result
falls back to the literal default (`'\x7b\x7d'` or `'[]'`). -/
def rawOrDefault (t? : Option String) (dflt : String) : String :=
  match t? with
  | none => dflt
  | some t => let s := fenceStrip t; if s.isEmpty then dflt else s

/-- Last-wins field lookup on a parsed JSON object (JavaScript object
literals keep the last duplicate key). -/
def getLastField (fs : List (String × Json)) (k : String) : Option Json :=
  ((fs.filter (fun p => p.1 == k)).getLast?).map (fun p => p.2)

/-- Reading a string-valued field of the parsed value as the code does with
`json.title` etc.; a missing, null or non-string field is taken as the
falsy/empty value (it is only consumed through `||` defaulting). -/
def jsFieldStr (j : Json) (k : String) : String :=
  match j with
  | Json.obj fs =>
    match getLastField fs k with
    | some (Json.str s) => s
    | _ => ""
  | _ => ""

/-- `(s, i) => (\{ ...s, id: 'm' + i + ' ' \})`: one module of the accepted
outline, with its synthetic id (note the trailing space from the template). -/
def moduleOfJson (i : Nat) (v : Json) : ContentModule :=
  { id := "m" ++ toString i ++ " ",
    heading := jsFieldStr v "heading",
    content := jsFieldStr v "content" }

/-- The statement `json.modules = json.modules?.map(...) || []` evaluated on
the parsed value `json`, in a strict-mode ES module: reading a property of
`null` throws, assigning a property of a primitive throws, a non-function
`map` member throws; an absent or null `modules` field yields `[]`. -/
def assignModules (j : Json) : Except String (List ContentModule) :=
  match j with
  | Json.obj fs =>
    match getLastField fs "modules" with
    | none => Except.ok []
    | some Json.null => Except.ok []
    | some (Json.arr xs) => Except.ok (xs.mapIdx moduleOfJson)
    | some _ => Except.error "TypeError: json.modules.map is not a function"
  | Json.arr _ => Except.ok []
  | _ => Except.error "TypeError: property access on a non-object"

/-- The `try` block of `processLeftBrain`: call, strip fences, `JSON.parse`,
attach module ids, validate non-empty `modules`; any throw is an `error`. -/
def processLeftBrainTry (resp : GenResult) : Except String LeftBrainData :=
  match resp with
  | GenResult.failure e => Except.error e
  | GenResult.success t? =>
    let raw := rawOrDefault t? "\x7b\x7d"
    match jsonParse raw with
    | none => Except.error "JSON parse error"
    | some j =>
      match assignModules j with
      | Except.error e => Except.error e
      | Except.ok mods =>
        if mods.isEmpty then Except.error "Empty modules"
        else
          Except.ok
            { title := jsFieldStr j "title",
              summary_context := jsFieldStr j "summary_context",
              visual_theme_keywords := jsFieldStr j "visual_theme_keywords",
              modules := mods }

/-- The fixed fallback outline returned by `processLeftBrain`'s catch. -/
def fallbackOutline : LeftBrainData :=
  { title := "解析失败",
    summary_context := "请重试或检查输入",
    visual_theme_keywords := "abstract",
    modules := [{ id := "err1", heading := "错误", content := "无法解析内容，请重试" }] }

/-- `processLeftBrain`: the try block with its catch-all returning the fixed
fallback outline. It resolves for every outcome of the external call. -/
def processLeftBrain (resp : GenResult) : LeftBrainData :=
  match processLeftBrainTry resp with
  | Except.ok d => d
  | Except.error _ => fallbackOutline

/-- The local segment filter of `processSplitBrain`:
`parts.filter(p => typeof p === 'string' && p.trim().length >= 100)`. -/
def splitFilter (parts : List Json) : List String :=
  parts.filterMap (fun p =>
    match p with
    | Json.str s => if 100 ≤ utf16Len (jsTrim s) then some s else none
    | _ => none)

/-- `processSplitBrain`: parse the proposed split, keep segments of at least
100 UTF-16 units, and fall back to the whole input on a failed call, an
unparsable or non-array response, an empty array, or an all-filtered split. -/
def processSplitBrain (resp : GenResult) (text : String) : List String :=
  match resp with
  | GenResult.failure _ => [text]
  | GenResult.success t? =>
    let raw := rawOrDefault t? "[]"
    match jsonParse raw with
    | none => [text]
    | some j =>
      match j with
      | Json.arr parts =>
        if parts.length > 0 then
          let validParts := splitFilter parts
          if validParts.isEmpty then [text] else validParts
        else [text]
      | _ => [text]

/-! `processRightBrain`: the synchronous template synthesis. The template
string is reproduced from the source literal; dynamic parts are interleaved
by concatenation exactly where the source interpolates them. -/

/-- One line of the modules section:
`(m, i) => (i+1) + '. Heading: "' + m.heading + '"\n   Content: "' + m.content + '"'`. -/
def moduleLine (i : Nat) (m : ContentModule) : String :=
  toString (i + 1) ++ ". Heading: \"" ++ m.heading ++ "\"\n   Content: \"" ++ m.content ++ "\""

/-- The template body of `processRightBrain` before the final `.trim()`. -/
def rightBrainTemplate (styleObj : StyleInfo) (colorClause : String)
    (keywords : String) (title : String) (summary : String)
    (modules : List ContentModule) (watermark : String) : String :=
  "\nRole: You are an expert Information Designer specializing in high - clarity educational sketchnotes.Your goal is to visualize complex information into a clean, organized, and readable \"Visual Note\".\n\n# VISUAL STYLE: [User Selection: " ++
  styleObj.name ++
  "]\n  - Core Aesthetic: " ++
  styleObj.desc ++
  ". Flat Vector Illustration style.Clean lines, high resolution, no blurring.\n- Background: Light beige(#F5F5DC) or style - appropriate light background with a faint dot grid pattern.CLEAN background, no heavy textures that interfere with text.\n- Color Palette: " ++
  colorClause ++
  " + Dark Charcoal(#333333) for all text.\n- Decorations: Simple 2D icons(flat style), subtle doodles related to \"" ++
  keywords ++
  "\" scattered * around * text boxes, not * behind * text.\n\n# CRITICAL TEXT RENDERING RULES(Priority Level: MAX)\n1. Font Strategy(The Success Secret): Use a font style resembling \"Bold Sans-serif\" or \"Clean Handwriting\"(like 楷体 / Heiti).Absolutely NO cursive, calligraphy, or messy strokes.Characters must be blocky and distinct.\n2. Text Container Strategy: All main text blocks MUST be placed inside ** Solid Color Text Bubbles or Rectangular Boxes ** (White or very light pastel fill) to ensure maximum contrast against the background dots.\n3. Clarity Over Style: Legibility is the #1 priority.Text characters must be sharp, high - contrast, and fully formed.\n4. Language: Simplified Chinese(简体中文).Check for correct stroke counts.NO Japanese Kana.\n5. Hierarchy(Relative Sizes):\n- Title: Very large, decorative, centered at top.\n    - Headers(1., 2., ...): Large, bold.\n    - Body Text: Medium size, clear bullet points.\n\n# LAYOUT & COMPOSITION\n  - Grid System: Use a modular layout(like a bento box).Divide the canvas into 5 clear, non - overlapping sections for the main points, plus a title area and footer.\n- Flow: Use cute, hand - drawn dotted arrows to guide the eye from section 1 to 5 logically.\n\n# OUTPUT SPECS\n  - Ratio: 3: 4(Vertical Long Chart)\n    - Resolution: High Definition(Vector - like sharpness)\n\n# VISUALIZATION CONTENT(Render exactly as structured below):\nTitle: \"" ++
  title ++
  "\"\nSubtitle: \"" ++
  summary ++
  "\"\nModules:\n" ++
  String.intercalate "\n" (modules.mapIdx moduleLine) ++
  "\n\nFooter Watermark: \"" ++
  watermark ++
  "\"\n  "

/-- `processRightBrain`: pure, local synthesis of the generation instruction.
A null/undefined outline returns the fixed error string; an unknown style id
falls back to `STYLES[0]`; falsy outline fields get the named defaults. -/
def processRightBrain (data? : Option LeftBrainData) (settings : VisualSettings) : String :=
  match data? with
  | none => "Error: No data provided"
  | some data =>
    let styleObj := (STYLES.find? (fun st => st.id == settings.styleId)).getD healingStyle
    let title := if data.title.isEmpty then "未命名笔记" else data.title
    let summary := if data.summary_context.isEmpty then "" else data.summary_context
    let keywords :=
      if data.visual_theme_keywords.isEmpty then "abstract concepts"
      else data.visual_theme_keywords
    let colorClause :=
      if settings.colorTheme.isEmpty then
        "Pastel low-saturation colors (Macaron Blue, Cream Yellow, Soft Pink)"
      else settings.colorTheme
    jsTrim (rightBrainTemplate styleObj colorClause keywords title summary data.modules settings.watermark)

/-! `processHand`: backend environments, extraction, and the retry loop. -/

/-- The payload of a multimodal response part's `inlineData`; empty strings
model absent (`undefined`) members, which the code treats as falsy. -/
structure InlineData where
  data : String
  mimeType : String
deriving DecidableEq

/-- Outcome of one `ai.models.generateContent` image call: a rejection, or a
response holding candidates, each with a list of parts (a part without
`inlineData` is `none`). -/
inductive GemOutcome where
  | failure (e : String)
  | response (cands : List (List (Option InlineData)))

/-- `extractInlineImage`: first part of any candidate whose `inlineData.data`
is truthy, with `mimeType || 'image/png'`. -/
def extractInlineImage (cands : List (List (Option InlineData))) : Option (String × String) :=
  (((cands.map (fun parts => parts.filterMap id)).flatten).find?
      (fun d => !d.data.isEmpty)).map
    (fun d => (d.data, if d.mimeType.isEmpty then "image/png" else d.mimeType))

/-- One element of the `predictions` list; empty strings model absent
members in the `bytesBase64Encoded || base64Data || data` chain. -/
structure Prediction where
  bytesBase64Encoded : String
  base64Data : String
  data : String
  mimeType : String
deriving DecidableEq

/-- `img?.bytesBase64Encoded || img?.base64Data || img?.data`. -/
def predImageData (p : Prediction) : String :=
  if !p.bytesBase64Encoded.isEmpty then p.bytesBase64Encoded
  else if !p.base64Data.isEmpty then p.base64Data
  else p.data

/-- Outcome of the proxied `fetch` call of `fetchImagen`. -/
inductive FetchOutcome where
  | netFailure (e : String)
  | httpFailure (status : Nat) (bodyText : String)
  | okJson (predictions : List Prediction)

/-- Environment of one `fetchImagen` call: the ambient `API_KEY` and the
fetch outcome. -/
structure ImagenEnv where
  apiKey : Option String
  fetch : FetchOutcome

/-- `fetchImagen`: key check, HTTP error propagation, prediction extraction,
and data-URI assembly. -/
def fetchImagen (env : ImagenEnv) : Except String String :=
  match env.apiKey with
  | none => Except.error "Missing API_KEY for Imagen request"
  | some _ =>
    match env.fetch with
    | FetchOutcome.netFailure e => Except.error e
    | FetchOutcome.httpFailure st body =>
      Except.error ("Imagen HTTP " ++ toString st ++ ": " ++ body)
    | FetchOutcome.okJson preds =>
      match preds.head? with
      | none => Except.error "Imagen response missing image data"
      | some p =>
        let data := predImageData p
        let mime := if p.mimeType.isEmpty then "image/png" else p.mimeType
        if data.isEmpty then Except.error "Imagen response missing image data"
        else Except.ok ("data:" ++ mime ++ ";base64," ++ data)

/-- Which backend shape an attempt used. -/
inductive Backend where
  | inlinePart
  | predictionList
deriving DecidableEq

/-- Environment of one retry attempt: both backends' would-be outcomes. -/
structure AttemptEnv where
  gem : GemOutcome
  imagen : ImagenEnv

/-- The body of one iteration of `processHand`'s retry loop: route on
`IMAGE_MODEL.toLowerCase().includes('gemini')`, and on success wrap the
image payload as a self-contained data URI. The first component records the
backend taken. -/
def attemptOnce (modelId : String) (env : AttemptEnv) : Backend × Except String String :=
  if strIncludes (jsToLower modelId) "gemini" then
    (Backend.inlinePart,
      match env.gem with
      | GemOutcome.failure e => Except.error e
      | GemOutcome.response cands =>
        match extractInlineImage cands with
        | none => Except.error "No inline image returned"
        | some (data, mime) => Except.ok ("data:" ++ mime ++ ";base64," ++ data))
  else
    (Backend.predictionList, fetchImagen env.imagen)

/-- An execution trace of `processHand`: attempts made, the `setTimeout`
delays awaited (in milliseconds, in order), and the settled result. -/
structure HandTrace where
  attemptsMade : Nat
  delays : List Nat
  result : Except String String

/-- The retry loop `for (let i = 0; i < maxRetries; i++) ...`: a success
returns at once; a failure records the last error, sleeps `1000 * (i + 1)`
milliseconds and retries; an exhausted loop throws the last error. -/
def handGo (attempt : Nat → Except String String) :
    Nat → Nat → Option String → List Nat → HandTrace
  | 0, i, lastErr, ds =>
    { attemptsMade := i, delays := ds.reverse,
      result := Except.error (lastErr.getD "undefined") }
  | fuel + 1, i, _, ds =>
    match attempt i with
    | Except.ok uri =>
      { attemptsMade := i + 1, delays := ds.reverse, result := Except.ok uri }
    | Except.error e => handGo attempt fuel (i + 1) (some e) (1000 * (i + 1) :: ds)

/-- `maxRetries = 3`. -/
def maxRetries : Nat := 3

/-- `processHand` as a trace over the per-attempt environments. -/
def processHand (modelId : String) (env : Nat → AttemptEnv) : HandTrace :=
  handGo (fun i => (attemptOnce modelId (env i)).2) maxRetries 0 none []

/-! The NoteUnit store and the batch scheduler. Each in-flight task mutates
the store only through the update-by-id operation; the waves below are the
sequentialization of those atomic merges (each task owns a disjoint unit id,
so every interleaving of the merges yields this result). -/

/-- `updateNote`: `setNotes(prev => prev.map(n => n.id === id ? merge : n))`;
the merge `(\x7b ...n, ...updates \x7d)` is passed as the function `f`. -/
def updateNote (store : List NoteUnit) (id : String) (f : NoteUnit → NoteUnit) :
    List NoteUnit :=
  store.map (fun n => if n.id == id then f n else n)

/-- `processNoteStructure` inside `handleBatchOrganize`, acting on the store:
mark the unit processing, run `processLeftBrain` (whose result is wrapped in
`Except.ok` because its internal catch makes it resolve for every outcome),
and merge the result; the catch branch of the source is the `error` arm. -/
def processNoteStructureStep (resp : String → GenResult) (store : List NoteUnit)
    (note : NoteUnit) : List NoteUnit :=
  let store1 := updateNote store note.id (fun n => { n with isProcessing := true })
  match (Except.ok (processLeftBrain (resp note.id)) : Except String LeftBrainData) with
  | Except.ok res =>
    updateNote store1 note.id
      (fun n => { n with struct := some res, stage := Stage.ReviewStructure, isProcessing := false })
  | Except.error _ =>
    updateNote store1 note.id
      (fun n => { n with isProcessing := false, error := some "结构整理失败" })

/-- `await Promise.all(notes.map(processNoteStructure))` as the composition
of the per-unit atomic merges. -/
def organizeWave (resp : String → GenResult) (notes : List NoteUnit)
    (store : List NoteUnit) : List NoteUnit :=
  notes.foldl (processNoteStructureStep resp) store

/-- `paintNote` inside `handleBatchPaint`, acting on the store; `result` is
the per-unit settled outcome of `processHand`. A unit without a generated
prompt is skipped before any store update. -/
def paintNoteStep (result : String → Except String String) (store : List NoteUnit)
    (note : NoteUnit) : List NoteUnit :=
  match note.generatedPrompt with
  | none => store
  | some _ =>
    let store1 := updateNote store note.id (fun n => { n with isProcessing := true })
    match result note.id with
    | Except.ok img =>
      updateNote store1 note.id
        (fun n => { n with finalImage := some img, stage := Stage.Done, isProcessing := false })
    | Except.error _ =>
      updateNote store1 note.id
        (fun n => { n with isProcessing := false, error := some "绘制失败" })

/-- One rendering wave: `await Promise.all(c.map(paintNote))`. -/
def paintWave (result : String → Except String String) (notes : List NoteUnit)
    (store : List NoteUnit) : List NoteUnit :=
  notes.foldl (paintNoteStep result) store

/-- The chunk helper of `handleBatchPaint`:
`Array.from(\x7b length: ceil(n / size) \x7d, (v, i) => arr.slice(i * size, i * size + size))`. -/
def chunk {α : Type} (arr : List α) (size : Nat) : List (List α) :=
  (List.range ((arr.length + size - 1) / size)).map
    (fun i => (arr.drop (i * size)).take size)

/-- `handleBatchPaint`'s scheduling core: chunks of 3, awaited strictly one
after another, each chunk a `Promise.all` wave over the store. -/
def handleBatchPaintRun (result : String → Except String String)
    (notes : List NoteUnit) : List NoteUnit :=
  (chunk notes 3).foldl (fun st c => paintWave result c st) notes

/-- Creation of the batch in `handleSplit`:
`parts.map((text, i) => (\x7b id: uuidv4(), order: i + 1, originalText: text,
stage: Stage.Organizing, isProcessing: false \x7d))`; `idGen` abstracts the
fresh-id source. -/
def handleSplitNotes (idGen : Nat → String) (parts : List String) : List NoteUnit :=
  parts.mapIdx (fun i text =>
    { id := idGen i, order := i + 1, originalText := text, stage := Stage.Organizing,
      isProcessing := false, struct := none, generatedPrompt := none,
      finalImage := none, error := none })

/-- Net effect of one rendering wave on one unit, in terms of only that
unit's own outcome and fields. -/
def paintNet (result : String → Except String String) (n : NoteUnit) : NoteUnit :=
  match n.generatedPrompt with
  | none => n
  | some _ =>
    match result n.id with
    | Except.ok img =>
      { n with finalImage := some img, stage := Stage.Done, isProcessing := false }
    | Except.error _ =>
      { n with isProcessing := false, error := some "绘制失败" }

/-- Net effect of one structuring wave on one unit. -/
def organizeNet (resp : String → GenResult) (n : NoteUnit) : NoteUnit :=
  { n with struct := some (processLeftBrain (resp n.id)),
           stage := Stage.ReviewStructure, isProcessing := false }

/-- The per-element form of one `paintNote` merge: what the step does to an
arbitrary store element. -/
def paintStepFun (result : String → Except String String) (n x : NoteUnit) : NoteUnit :=
  match n.generatedPrompt with
  | none => x
  | some _ =>
    if x.id == n.id then
      match result n.id with
      | Except.ok img =>
        { x with finalImage := some img, stage := Stage.Done, isProcessing := false }
      | Except.error _ =>
        { x with isProcessing := false, error := some "绘制失败" }
    else x

/-- The per-element form of one `processNoteStructure` merge. -/
def orgStepFun (resp : String → GenResult) (n x : NoteUnit) : NoteUnit :=
  if x.id == n.id then
    { x with struct := some (processLeftBrain (resp n.id)),
             stage := Stage.ReviewStructure, isProcessing := false }
  else x

/-- The parsed-array view of a splitting response: `some parts` exactly when
the call succeeded and its stripped payload parses to a JSON array. -/
def respParsedArr (resp : GenResult) : Option (List Json) :=
  match resp with
  | GenResult.failure _ => none
  | GenResult.success t? =>
    match jsonParse (rawOrDefault t? "[]") with
    | some (Json.arr parts) => some parts
    | _ => none

/-- A sample unit sitting in the structuring phase. -/
def exNote : NoteUnit :=
  { id := "u1", order := 1, originalText := "素材", stage := Stage.Organizing,
    isProcessing := false, struct := none, generatedPrompt := none,
    finalImage := none, error := none }

/-- The 6-character scenario input of the spec. -/
def c9input : String := "这是一句话。"

/-- A 100-character segment the external service could hallucinate. -/
def c9badSegment : String := ⟨List.replicate 100 'a'⟩

/-- A well-formed splitting response whose single segment passes the
100-character filter but is not a piece of the 6-character input. -/
def c9badResponse : String := "[\"" ++ c9badSegment ++ "\"]"

/-- A sample unit ready for the rendering phase. -/
def mkNote (i : Nat) : NoteUnit :=
  { id := "n" ++ toString i, order := i + 1, originalText := "t",
    stage := Stage.ReviewPrompt, isProcessing := false, struct := none,
    generatedPrompt := some "p", finalImage := none, error := none }

/-- Seven units, for the chunking scenario. -/
def exNotes7 : List NoteUnit :=
  [mkNote 0, mkNote 1, mkNote 2, mkNote 3, mkNote 4, mkNote 5, mkNote 6]

/-- Two units with distinct ids, for the isolation scenario. -/
def exNotesC6 : List NoteUnit := [mkNote 0, mkNote 1]

/-- Rendering outcomes where unit `n0` fails and every other unit succeeds. -/
def exResultC6 : String → Except String String := fun id =>
  if id == "n0" then Except.error "simulated transport error"
  else Except.ok "data:image/png;base64,Z"

/-- An attempt environment in which both backends fail. -/
def failEnvC3 : AttemptEnv :=
  ⟨GemOutcome.failure "boom", ⟨none, FetchOutcome.netFailure "x"⟩⟩

/-- An attempt environment in which the inline backend succeeds. -/
def okEnvC3 : AttemptEnv :=
  ⟨GemOutcome.response [[some ⟨"IMG", ""⟩]], ⟨none, FetchOutcome.netFailure "x"⟩⟩

/-- Per-attempt environments: the first attempt fails, later ones succeed. -/
def envC3 : Nat → AttemptEnv := fun i => if i = 0 then failEnvC3 else okEnvC3

/-- An environment for the prediction-list backend with a usable payload. -/
def exImagenEnv : AttemptEnv :=
  ⟨GemOutcome.failure "no", ⟨some "key", FetchOutcome.okJson [⟨"QQQ", "", "", ""⟩]⟩⟩

/-- A sample outline for the prompt-synthesis scenarios. -/
def exOutline : LeftBrainData :=
  { title := "标题", summary_context := "背景", visual_theme_keywords := "stars",
    modules := [{ id := "m0 ", heading := "一", content := "内容" }] }

/-- Settings whose style id matches no entry of `STYLES`. -/
def exBadSettings : VisualSettings :=
  { styleId := "cyber", colorTheme := "", watermark := "SoulNote" }

/-! Lemmas about the store operations. -/

theorem updateNote_twice (s : List NoteUnit) (id : String) (f g : NoteUnit → NoteUnit)
    (hf : ∀ x, (f x).id = x.id) :
    updateNote (updateNote s id f) id g = updateNote s id (fun x => g (f x)) := by
  unfold updateNote
  rw [List.map_map]
  apply List.map_congr_left
  intro n _
  by_cases h : (n.id == id) = true
  · simp [Function.comp, h, hf]
  · simp [Function.comp, h]

theorem paintNoteStep_eq_map (result : String → Except String String)
    (st : List NoteUnit) (n : NoteUnit) :
    paintNoteStep result st n = st.map (paintStepFun result n) := by
  unfold paintNoteStep paintStepFun
  cases hg : n.generatedPrompt with
  | none => simp
  | some p =>
    cases hr : result n.id with
    | ok img =>
      dsimp only
      rw [updateNote_twice st n.id (fun m => { m with isProcessing := true }) _ (fun _ => rfl)]
      unfold updateNote
      apply List.map_congr_left
      intro x _
      by_cases h : (x.id == n.id) = true <;> simp [h, hr]
    | error e =>
      dsimp only
      rw [updateNote_twice st n.id (fun m => { m with isProcessing := true }) _ (fun _ => rfl)]
      unfold updateNote
      apply List.map_congr_left
      intro x _
      by_cases h : (x.id == n.id) = true <;> simp [h, hr]

theorem processNoteStructureStep_eq_map (resp : String → GenResult)
    (st : List NoteUnit) (n : NoteUnit) :
    processNoteStructureStep resp st n = st.map (orgStepFun resp n) := by
  unfold processNoteStructureStep orgStepFun
  dsimp only
  rw [updateNote_twice st n.id (fun m => { m with isProcessing := true }) _ (fun _ => rfl)]
  unfold updateNote
  apply List.map_congr_left
  intro x _
  by_cases h : (x.id == n.id) = true <;> simp [h]

/-- Folding per-element steps over a shared store is a pointwise map. -/
theorem foldl_mapstep (g : NoteUnit → NoteUnit → NoteUnit) :
    ∀ (notes store : List NoteUnit),
      notes.foldl (fun st n => st.map (g n)) store
        = store.map (fun x => notes.foldl (fun y n => g n y) x) := by
  intro notes
  induction notes with
  | nil => intro store; simp
  | cons n ns ih =>
    intro store
    calc (n :: ns).foldl (fun st m => st.map (g m)) store
        = ns.foldl (fun st m => st.map (g m)) (store.map (g n)) := rfl
      _ = (store.map (g n)).map (fun x => ns.foldl (fun y m => g m y) x) := ih _
      _ = store.map (fun x => (n :: ns).foldl (fun y m => g m y) x) := by
          rw [List.map_map]; rfl

/-- With pairwise-distinct ids, the pointwise fold of per-element steps
applied to a member of the wave reduces to that member's own step. -/
theorem foldl_pointwise_of_nodup (g : NoteUnit → NoteUnit → NoteUnit)
    (hid : ∀ n x, (g n x).id = x.id)
    (hskip : ∀ n x, x.id ≠ n.id → g n x = x) :
    ∀ (notes : List NoteUnit), (notes.map (fun n => n.id)).Nodup →
      ∀ u ∈ notes, notes.foldl (fun y n => g n y) u = g u u := by
  have stay : ∀ (l : List NoteUnit) (y : NoteUnit),
      (∀ n ∈ l, y.id ≠ n.id) → l.foldl (fun z n => g n z) y = y := by
    intro l
    induction l with
    | nil => intro y _; rfl
    | cons n ns ih =>
      intro y hy
      have h1 : g n y = y := hskip n y (hy n (List.mem_cons_self n ns))
      simp only [List.foldl_cons, h1]
      exact ih y (fun m hm => hy m (List.mem_cons_of_mem n hm))
  intro notes hnd u hu
  obtain ⟨l1, l2, rfl⟩ := List.append_of_mem hu
  have hnd' : ((l1.map (fun n => n.id)) ++ u.id :: (l2.map (fun n => n.id))).Nodup := by
    simpa using hnd
  have hmid := List.nodup_middle.mp hnd'
  have hun : u.id ∉ (l1.map (fun n => n.id)) ++ (l2.map (fun n => n.id)) :=
    (List.nodup_cons.mp hmid).1
  have hu1 : ∀ n ∈ l1, u.id ≠ n.id := by
    intro n hn heq
    exact hun (List.mem_append.mpr (Or.inl (heq ▸ List.mem_map_of_mem _ hn)))
  have hu2 : ∀ n ∈ l2, u.id ≠ n.id := by
    intro n hn heq
    exact hun (List.mem_append.mpr (Or.inr (heq ▸ List.mem_map_of_mem _ hn)))
  rw [List.foldl_append]
  rw [stay l1 u hu1]
  simp only [List.foldl_cons]
  have hgid : (g u u).id = u.id := hid u u
  exact stay l2 (g u u) (fun n hn => by rw [hgid]; exact hu2 n hn)

theorem paintStepFun_id (result : String → Except String String) (n x : NoteUnit) :
    (paintStepFun result n x).id = x.id := by
  unfold paintStepFun
  cases n.generatedPrompt with
  | none => rfl
  | some p =>
    by_cases h : (x.id == n.id) = true
    · cases result n.id <;> simp [h]
    · simp [h]

theorem paintStepFun_skip (result : String → Except String String) (n x : NoteUnit)
    (h : x.id ≠ n.id) : paintStepFun result n x = x := by
  unfold paintStepFun
  cases n.generatedPrompt with
  | none => rfl
  | some p => simp [h]

theorem paintStepFun_self (result : String → Except String String) (u : NoteUnit) :
    paintStepFun result u u = paintNet result u := by
  unfold paintStepFun paintNet
  cases u.generatedPrompt with
  | none => rfl
  | some p => simp

theorem orgStepFun_id (resp : String → GenResult) (n x : NoteUnit) :
    (orgStepFun resp n x).id = x.id := by
  unfold orgStepFun
  by_cases h : (x.id == n.id) = true <;> simp [h]

theorem orgStepFun_skip (resp : String → GenResult) (n x : NoteUnit)
    (h : x.id ≠ n.id) : orgStepFun resp n x = x := by
  unfold orgStepFun
  simp [h]

theorem orgStepFun_self (resp : String → GenResult) (u : NoteUnit) :
    orgStepFun resp u u = organizeNet resp u := by
  unfold orgStepFun organizeNet
  simp

/-- With distinct unit ids, a rendering wave over the store equals the
independent per-unit transformation. -/
theorem paintWave_eq_map_net (result : String → Except String String)
    (notes : List NoteUnit) (hnd : (notes.map (fun n => n.id)).Nodup) :
    paintWave result notes notes = notes.map (paintNet result) := by
  unfold paintWave
  have hfun : paintNoteStep result = fun st n => st.map (paintStepFun result n) := by
    funext st n
    exact paintNoteStep_eq_map result st n
  rw [hfun, foldl_mapstep]
  apply List.map_congr_left
  intro u hu
  rw [foldl_pointwise_of_nodup (paintStepFun result)
        (paintStepFun_id result) (paintStepFun_skip result) notes hnd u hu]
  exact paintStepFun_self result u

/-- With distinct unit ids, a structuring wave over the store equals the
independent per-unit transformation. -/
theorem organizeWave_eq_map_net (resp : String → GenResult)
    (notes : List NoteUnit) (hnd : (notes.map (fun n => n.id)).Nodup) :
    organizeWave resp notes notes = notes.map (organizeNet resp) := by
  unfold organizeWave
  have hfun : processNoteStructureStep resp = fun st n => st.map (orgStepFun resp n) := by
    funext st n
    exact processNoteStructureStep_eq_map resp st n
  rw [hfun, foldl_mapstep]
  apply List.map_congr_left
  intro u hu
  rw [foldl_pointwise_of_nodup (orgStepFun resp)
        (orgStepFun_id resp) (orgStepFun_skip resp) notes hnd u hu]
  exact orgStepFun_self resp u

/-! Lemmas about the chunk helper (fixed size 3, as `handleBatchPaint` uses). -/

theorem chunk3_cons {α : Type} (l : List α) (h : l ≠ []) :
    chunk l 3 = l.take 3 :: chunk (l.drop 3) 3 := by
  unfold chunk
  have hlen : 1 ≤ l.length := List.length_pos.mpr h
  have hdiv : (l.length + 3 - 1) / 3 = ((l.drop 3).length + 3 - 1) / 3 + 1 := by
    rw [List.length_drop]
    omega
  rw [hdiv, List.range_succ_eq_map, List.map_cons, List.map_map]
  congr 1
  apply List.map_congr_left
  intro i _
  simp only [Function.comp, List.drop_drop]
  congr 2
  omega

theorem chunk3_flatten_aux {α : Type} :
    ∀ (n : Nat) (l : List α), l.length ≤ n → (chunk l 3).flatten = l := by
  intro n
  induction n with
  | zero =>
    intro l h
    have : l = [] := List.length_eq_zero.mp (Nat.le_zero.mp h)
    subst this
    simp [chunk]
  | succ k ih =>
    intro l h
    by_cases hl : l = []
    · subst hl; simp [chunk]
    · rw [chunk3_cons l hl, List.flatten_cons]
      have hlen : 1 ≤ l.length := List.length_pos.mpr hl
      have : (l.drop 3).length ≤ k := by
        rw [List.length_drop]; omega
      rw [ih _ this, List.take_append_drop]

/-- The chunks of size 3 concatenate back, in order, to the original list. -/
theorem chunk3_flatten {α : Type} (l : List α) : (chunk l 3).flatten = l :=
  chunk3_flatten_aux l.length l (Nat.le_refl _)

/-- Every chunk of size 3 holds at most 3 elements. -/
theorem chunk3_length_le {α : Type} (l : List α) (c : List α) (hc : c ∈ chunk l 3) :
    c.length ≤ 3 := by
  unfold chunk at hc
  obtain ⟨i, _, rfl⟩ := List.mem_map.mp hc
  calc ((l.drop (i * 3)).take 3).length ≤ 3 := List.length_take_le _ _

/-- For a batch of 7, the chunk sizes are 3, 3, 1. -/
theorem chunk3_of_seven {α : Type} (l : List α) (h : l.length = 7) :
    (chunk l 3).map List.length = [3, 3, 1] := by
  unfold chunk
  have h9 : (l.length + 3 - 1) / 3 = 3 := by rw [h]
  rw [h9]
  have hr : List.range 3 = [0, 1, 2] := by decide
  rw [hr]
  simp [List.length_take, List.length_drop, h]

/-- A sequence of waves over the chunks equals one wave over the whole
batch: the strict chunk barrier does not change the final store. -/
theorem handleBatchPaintRun_eq_paintWave (result : String → Except String String)
    (notes : List NoteUnit) : handleBatchPaintRun result notes = paintWave result notes notes := by
  have haux : ∀ (cs : List (List NoteUnit)) (s : List NoteUnit),
      cs.foldl (fun st c => paintWave result c st) s
        = cs.flatten.foldl (paintNoteStep result) s := by
    intro cs
    induction cs with
    | nil => intro s; rfl
    | cons c cs ih =>
      intro s
      rw [List.foldl_cons, List.flatten_cons, List.foldl_append, ih]
      rfl
  unfold handleBatchPaintRun
  rw [haux, chunk3_flatten]
  rfl

/-! Lemmas about UTF-16 lengths and `jsTrim`. -/

theorem utf16LenL_cons (c : Char) (l : List Char) :
    utf16LenL (c :: l) = utf16Units c + utf16LenL l := by
  simp [utf16LenL]

theorem utf16LenL_dropWhile_le (p : Char → Bool) (l : List Char) :
    utf16LenL (l.dropWhile p) ≤ utf16LenL l := by
  induction l with
  | nil => exact Nat.le_refl _
  | cons c cs ih =>
    rw [List.dropWhile_cons]
    by_cases h : p c = true
    · simp only [h, if_true]
      exact ih.trans (by rw [utf16LenL_cons]; exact Nat.le_add_left _ _)
    · simp [h]

theorem utf16LenL_reverse (l : List Char) : utf16LenL l.reverse = utf16LenL l := by
  simp [utf16LenL, List.map_reverse, List.sum_reverse]

/-- `trim` cannot lengthen a string (in UTF-16 units). -/
theorem utf16Len_jsTrim_le (s : String) : utf16Len (jsTrim s) ≤ utf16Len s := by
  show utf16LenL (((s.data.dropWhile jsWhitespace).reverse.dropWhile jsWhitespace).reverse)
      ≤ utf16LenL s.data
  rw [utf16LenL_reverse]
  calc utf16LenL ((s.data.dropWhile jsWhitespace).reverse.dropWhile jsWhitespace)
      ≤ utf16LenL (s.data.dropWhile jsWhitespace).reverse := utf16LenL_dropWhile_le _ _
    _ = utf16LenL (s.data.dropWhile jsWhitespace) := utf16LenL_reverse _
    _ ≤ utf16LenL s.data := utf16LenL_dropWhile_le _ _

/-! Lemmas about the retry loop and the splitter. -/

theorem handGo_succ (a : Nat → Except String String) (fuel i : Nat)
    (last : Option String) (ds : List Nat) :
    handGo a (fuel + 1) i last ds =
      match a i with
      | Except.ok uri => ⟨i + 1, ds.reverse, Except.ok uri⟩
      | Except.error e => handGo a fuel (i + 1) (some e) (1000 * (i + 1) :: ds) := rfl

/-- The complete case analysis of `processHand`'s three attempts. -/
theorem processHand_trace (modelId : String) (env : Nat → AttemptEnv) :
    processHand modelId env =
      match (attemptOnce modelId (env 0)).2 with
      | Except.ok u => ⟨1, [], Except.ok u⟩
      | Except.error _ =>
        match (attemptOnce modelId (env 1)).2 with
        | Except.ok u => ⟨2, [1000], Except.ok u⟩
        | Except.error _ =>
          match (attemptOnce modelId (env 2)).2 with
          | Except.ok u => ⟨3, [1000, 2000], Except.ok u⟩
          | Except.error e2 => ⟨3, [1000, 2000, 3000], Except.error e2⟩ := by
  unfold processHand maxRetries
  cases h0 : (attemptOnce modelId (env 0)).2 with
  | ok u => simp [handGo, h0]
  | error e0 =>
    cases h1 : (attemptOnce modelId (env 1)).2 with
    | ok u => simp [handGo, h0, h1]
    | error e1 =>
      cases h2 : (attemptOnce modelId (env 2)).2 with
      | ok u => simp [handGo, h0, h1, h2]
      | error e2 => simp [handGo, h0, h1, h2]

/-- Everything `splitFilter` keeps came from a string element that passed the
100-unit threshold. -/
theorem splitFilter_mem_src (parts : List Json) (s : String)
    (hs : s ∈ splitFilter parts) :
    Json.str s ∈ parts ∧ 100 ≤ utf16Len (jsTrim s) := by
  unfold splitFilter at hs
  rcases List.mem_filterMap.mp hs with ⟨p, hp, hsome⟩
  cases p with
  | str s2 =>
    dsimp only at hsome
    by_cases h : 100 ≤ utf16Len (jsTrim s2)
    · rw [if_pos h] at hsome
      injection hsome with h2
      subst h2
      exact ⟨hp, h⟩
    · rw [if_neg h] at hsome
      exact absurd hsome (by simp)
  | null => exact absurd hsome (by simp)
  | bool b => exact absurd hsome (by simp)
  | num t => exact absurd hsome (by simp)
  | arr xs => exact absurd hsome (by simp)
  | obj fs => exact absurd hsome (by simp)

/-- `processSplitBrain` through the parsed-array view. -/
theorem processSplitBrain_eq (resp : GenResult) (text : String) :
    processSplitBrain resp text =
      match respParsedArr resp with
      | none => [text]
      | some parts =>
        if parts.length > 0 then
          if (splitFilter parts).isEmpty then [text] else splitFilter parts
        else [text] := by
  unfold processSplitBrain respParsedArr
  cases resp with
  | failure e => rfl
  | success t? =>
    dsimp only
    cases hp : jsonParse (rawOrDefault t? "[]") with
    | none => rfl
    | some j => cases j <;> rfl

/-! Claim theorems. -/

/-- C1: every structuring response that is unparsable as JSON, or parses to
an object with a missing or empty `modules` list, makes `processLeftBrain`
return the fixed fallback outline titled "解析失败" with exactly one
explanatory module, and the unit still advances to `ReviewStructure` with
this placeholder content (no terminal error state). -/
theorem structureExtractor_fallback_on_malformed (t : String)
    (hbad : jsonParse (rawOrDefault (some t) "\x7b\x7d") = none ∨
      ∃ fs, jsonParse (rawOrDefault (some t) "\x7b\x7d") = some (Json.obj fs) ∧
        (getLastField fs "modules" = none ∨
         getLastField fs "modules" = some (Json.arr []))) :
    processLeftBrain (GenResult.success (some t)) = fallbackOutline
    ∧ fallbackOutline.title = "解析失败"
    ∧ fallbackOutline.modules.length = 1
    ∧ ∀ (note : NoteUnit),
        processNoteStructureStep (fun _ => GenResult.success (some t)) [note] note
          = [{ note with
                struct := some fallbackOutline,
                stage := Stage.ReviewStructure,
                isProcessing := false }] := by
  have hfb : processLeftBrain (GenResult.success (some t)) = fallbackOutline := by
    rcases hbad with hp | ⟨fs, hp, hm⟩
    · simp [processLeftBrain, processLeftBrainTry, hp]
    · rcases hm with hm | hm <;>
        simp [processLeftBrain, processLeftBrainTry, hp, assignModules, hm]
  refine ⟨hfb, rfl, rfl, ?_⟩
  intro note
  unfold processNoteStructureStep
  dsimp only
  rw [updateNote_twice [note] note.id (fun m => { m with isProcessing := true }) _
        (fun _ => rfl)]
  simp [updateNote, hfb]

/-- Witness for C1 at the spec's malformed response `"not json"`. -/
theorem structureExtractor_fallback_on_malformed_witness :
    processLeftBrain (GenResult.success (some "not json")) = fallbackOutline
    ∧ fallbackOutline.title = "解析失败"
    ∧ fallbackOutline.modules.length = 1 := by
  have h := structureExtractor_fallback_on_malformed "not json" (Or.inl (by rfl))
  exact ⟨h.1, h.2.1, h.2.2.1⟩

/-- C2 counterexample: on an external-call (transport) failure the unit does
NOT take an `Organizing → Failed` transition; it receives the fallback
outline, advances to `ReviewStructure`, and its `error` field stays unset,
because `processLeftBrain`'s internal catch absorbs the rejection. -/
theorem transportFailure_counterexample :
    processNoteStructureStep (fun _ => GenResult.failure "transport error") [exNote] exNote
      = [{ exNote with
            struct := some fallbackOutline,
            stage := Stage.ReviewStructure,
            isProcessing := false }]
    ∧ ({ exNote with
          struct := some fallbackOutline,
          stage := Stage.ReviewStructure,
          isProcessing := false } : NoteUnit).error = none
    ∧ ({ exNote with
          struct := some fallbackOutline,
          stage := Stage.ReviewStructure,
          isProcessing := false } : NoteUnit).stage
        ≠ Stage.Organizing := by
  refine ⟨by rfl, rfl, by decide⟩

/-- C2 (amended): a transport failure during structuring is absorbed by
`processLeftBrain`'s internal catch exactly like a malformed response: the
unit receives the fallback outline and advances to `ReviewStructure` with
`isProcessing = false` and no `error` set. The `Organizing → Failed` branch
of `processNoteStructure` (set `error`, keep the stage) is unreachable,
because `processLeftBrain` resolves for every outcome of the external
call. -/
theorem transportFailure_absorbed_by_fallback (e : String) (store : List NoteUnit)
    (note : NoteUnit) (resp : String → GenResult) :
    processLeftBrain (GenResult.failure e) = fallbackOutline
    ∧ processNoteStructureStep (fun _ => GenResult.failure e) store note
        = updateNote store note.id
            (fun n => { n with
              struct := some fallbackOutline,
              stage := Stage.ReviewStructure,
              isProcessing := false })
    ∧ processNoteStructureStep resp store note
        = updateNote store note.id
            (fun n => { n with
              struct := some (processLeftBrain (resp note.id)),
              stage := Stage.ReviewStructure,
              isProcessing := false }) := by
  refine ⟨rfl, ?_, ?_⟩
  · unfold processNoteStructureStep
    dsimp only
    rw [updateNote_twice store note.id (fun m => { m with isProcessing := true }) _
          (fun _ => rfl)]
    rfl
  · unfold processNoteStructureStep
    dsimp only
    rw [updateNote_twice store note.id (fun m => { m with isProcessing := true }) _
          (fun _ => rfl)]

/-- C3: `processHand` makes at most 3 attempts; the wait between attempt
`i` and attempt `i + 1` is `1000 * (i + 1)` milliseconds (1s then 2s); a
success on any attempt returns at once with no further attempt or delay;
and when all 3 attempts fail the last error is thrown (no content
fallback). -/
theorem imageRenderer_retry_policy (modelId : String) (env : Nat → AttemptEnv) :
    (processHand modelId env).attemptsMade ≤ 3
    ∧ (∀ u, (attemptOnce modelId (env 0)).2 = Except.ok u →
        processHand modelId env = ⟨1, [], Except.ok u⟩)
    ∧ (∀ e0 u, (attemptOnce modelId (env 0)).2 = Except.error e0 →
        (attemptOnce modelId (env 1)).2 = Except.ok u →
        processHand modelId env = ⟨2, [1000], Except.ok u⟩)
    ∧ (∀ e0 e1 u, (attemptOnce modelId (env 0)).2 = Except.error e0 →
        (attemptOnce modelId (env 1)).2 = Except.error e1 →
        (attemptOnce modelId (env 2)).2 = Except.ok u →
        processHand modelId env = ⟨3, [1000, 2000], Except.ok u⟩)
    ∧ (∀ e0 e1 e2, (attemptOnce modelId (env 0)).2 = Except.error e0 →
        (attemptOnce modelId (env 1)).2 = Except.error e1 →
        (attemptOnce modelId (env 2)).2 = Except.error e2 →
        (processHand modelId env).result = Except.error e2
        ∧ (processHand modelId env).attemptsMade = 3
        ∧ (processHand modelId env).delays.take 2 = [1000, 2000]) := by
  rw [processHand_trace]
  refine ⟨?_, ?_, ?_, ?_, ?_⟩
  · cases h0 : (attemptOnce modelId (env 0)).2 with
    | ok u => simp
    | error e0 =>
      cases h1 : (attemptOnce modelId (env 1)).2 with
      | ok u => simp
      | error e1 =>
        cases h2 : (attemptOnce modelId (env 2)).2 with
        | ok u => simp
        | error e2 => simp
  · intro u h0
    rw [h0]
  · intro e0 u h0 h1
    rw [h0]
    dsimp only
    rw [h1]
  · intro e0 e1 u h0 h1 h2
    rw [h0]
    dsimp only
    rw [h1]
    dsimp only
    rw [h2]
  · intro e0 e1 e2 h0 h1 h2
    rw [h0]
    dsimp only
    rw [h1]
    dsimp only
    rw [h2]
    exact ⟨rfl, rfl, rfl⟩

/-- Witness for C3: a failure then a success stops after attempt 2 with one
1-second delay; three failures surface the last error. -/
theorem imageRenderer_retry_policy_witness :
    processHand "gemini-3-pro-image-preview" envC3
      = ⟨2, [1000], Except.ok "data:image/png;base64,IMG"⟩
    ∧ (processHand "gemini-3-pro-image-preview" (fun _ => failEnvC3)).result
        = Except.error "boom" := by
  constructor
  · exact (imageRenderer_retry_policy "gemini-3-pro-image-preview" envC3).2.2.1
      "boom" "data:image/png;base64,IMG" (by rfl) (by rfl)
  · exact ((imageRenderer_retry_policy "gemini-3-pro-image-preview"
      (fun _ => failEnvC3)).2.2.2.2 "boom" "boom" "boom" (by rfl) (by rfl) (by rfl)).1

/-- C4: `processSplitBrain` is total: it never returns an empty segment
list; every kept segment trims to at least 100 UTF-16 units; a failed call,
an unparsable or non-array response, and an all-discarded split each yield
exactly the original input as the single segment; otherwise the output is
exactly the filtered segment list. -/
theorem textSplitter_total_fallback (resp : GenResult) (text : String) :
    processSplitBrain resp text ≠ []
    ∧ (processSplitBrain resp text = [text] ∨
        ∀ s ∈ processSplitBrain resp text, 100 ≤ utf16Len (jsTrim s))
    ∧ (∀ e, resp = GenResult.failure e → processSplitBrain resp text = [text])
    ∧ (respParsedArr resp = none → processSplitBrain resp text = [text])
    ∧ (∀ parts, respParsedArr resp = some parts →
        (splitFilter parts = [] → processSplitBrain resp text = [text])
        ∧ (splitFilter parts ≠ [] → processSplitBrain resp text = splitFilter parts)) := by
  rw [processSplitBrain_eq]
  cases hpa : respParsedArr resp with
  | none =>
    refine ⟨by simp, Or.inl rfl, fun e _ => rfl, fun _ => rfl, ?_⟩
    intro parts hparts
    exact absurd hparts (by simp)
  | some parts =>
    by_cases hlen : parts.length > 0
    · by_cases hemp : (splitFilter parts).isEmpty
      · have hval : (match some parts with
            | none => [text]
            | some ps =>
              if ps.length > 0 then
                if (splitFilter ps).isEmpty then [text] else splitFilter ps
              else [text]) = [text] := by
          simp [hlen, hemp]
        rw [hval]
        refine ⟨by simp, Or.inl rfl, ?_, ?_, ?_⟩
        · intro e he
          subst he
          simp [respParsedArr] at hpa
        · intro h
          exact absurd h (by simp)
        · intro parts2 hparts2
          have h := Option.some.inj hparts2
          subst h
          refine ⟨fun _ => rfl, fun hne => ?_⟩
          exact absurd (List.isEmpty_iff.mp hemp) hne
      · have hval : (match some parts with
            | none => [text]
            | some ps =>
              if ps.length > 0 then
                if (splitFilter ps).isEmpty then [text] else splitFilter ps
              else [text]) = splitFilter parts := by
          simp [hlen, hemp]
        rw [hval]
        refine ⟨?_, ?_, ?_, ?_, ?_⟩
        · intro hcon
          exact hemp (by simp [hcon])
        · refine Or.inr ?_
          intro s hs
          exact (splitFilter_mem_src parts s hs).2
        · intro e he
          subst he
          simp [respParsedArr] at hpa
        · intro h
          exact absurd h (by simp)
        · intro parts2 hparts2
          have h := Option.some.inj hparts2
          subst h
          refine ⟨fun hzero => ?_, fun _ => rfl⟩
          exact absurd (by simp [hzero] : (splitFilter parts).isEmpty = true) hemp
    · have hval : (match some parts with
          | none => [text]
          | some ps =>
            if ps.length > 0 then
              if (splitFilter ps).isEmpty then [text] else splitFilter ps
            else [text]) = [text] := by
        simp [hlen]
      rw [hval]
      refine ⟨by simp, Or.inl rfl, ?_, ?_, ?_⟩
      · intro e he
        subst he
        simp [respParsedArr] at hpa
      · intro h
        exact absurd h (by simp)
      · intro parts2 hparts2
        have h := Option.some.inj hparts2
        subst h
        have hnil : parts = [] := List.length_eq_zero.mp (by omega)
        subst hnil
        refine ⟨fun _ => rfl, fun hne => absurd rfl hne⟩

/-- Witness for C4: a transport failure and an all-short split both
degrade to the single original segment. -/
theorem textSplitter_total_fallback_witness :
    processSplitBrain (GenResult.failure "timeout") "原文" = ["原文"]
    ∧ processSplitBrain (GenResult.success (some "[\"tiny\"]")) "原文" = ["原文"] := by
  constructor
  · exact (textSplitter_total_fallback (GenResult.failure "timeout") "原文").2.2.1
      "timeout" rfl
  · exact ((textSplitter_total_fallback (GenResult.success (some "[\"tiny\"]")) "原文"
      ).2.2.2.2 [Json.str "tiny"] (by rfl)).1 (by rfl)

/-- C5: the rendering batch is partitioned, order preserved, into
consecutive chunks of size 3 (last chunk the remainder), each chunk at most
3 units, chunks are awaited strictly one after another (their sequential
composition equals the single-wave run), and a batch of 7 has chunk sizes
3, 3, 1. -/
theorem batchScheduler_chunking (notes : List NoteUnit) :
    (chunk notes 3).flatten = notes
    ∧ (∀ c ∈ chunk notes 3, c.length ≤ 3)
    ∧ (notes.length = 7 → (chunk notes 3).map List.length = [3, 3, 1])
    ∧ (∀ result, handleBatchPaintRun result notes = paintWave result notes notes) :=
  ⟨chunk3_flatten notes,
   fun c hc => chunk3_length_le notes c hc,
   fun h => chunk3_of_seven notes h,
   fun result => handleBatchPaintRun_eq_paintWave result notes⟩

/-- Witness for C5 on a batch of 7 concrete units. -/
theorem batchScheduler_chunking_witness :
    (chunk exNotes7 3).map List.length = [3, 3, 1]
    ∧ (chunk exNotes7 3).flatten = exNotes7 := by
  constructor
  · exact (batchScheduler_chunking exNotes7).2.2.1 (by rfl)
  · exact (batchScheduler_chunking exNotes7).1

/-- C6: within one wave (structuring or rendering) over units with distinct
ids, the store after the wave is the independent per-unit transformation:
a failing unit receives only `isProcessing := false` and its `error` string
via the update-by-id operation, no sibling unit's field depends on it, and
siblings still reach their success stage (`ReviewStructure`, resp.
`Done`). -/
theorem batchWave_failure_isolated (result : String → Except String String)
    (resp : String → GenResult) (notes : List NoteUnit)
    (hnd : (notes.map (fun n => n.id)).Nodup) :
    paintWave result notes notes = notes.map (paintNet result)
    ∧ organizeWave resp notes notes = notes.map (organizeNet resp)
    ∧ handleBatchPaintRun result notes = notes.map (paintNet result)
    ∧ (∀ u p e, u.generatedPrompt = some p → result u.id = Except.error e →
        paintNet result u = { u with isProcessing := false, error := some "绘制失败" })
    ∧ (∀ v p img, v.generatedPrompt = some p → result v.id = Except.ok img →
        paintNet result v
          = { v with finalImage := some img, stage := Stage.Done, isProcessing := false })
    ∧ (∀ n, organizeNet resp n
        = { n with
            struct := some (processLeftBrain (resp n.id)),
            stage := Stage.ReviewStructure,
            isProcessing := false }) := by
  refine ⟨paintWave_eq_map_net result notes hnd,
          organizeWave_eq_map_net resp notes hnd, ?_, ?_, ?_, fun n => rfl⟩
  · rw [handleBatchPaintRun_eq_paintWave]
    exact paintWave_eq_map_net result notes hnd
  · intro u p e hp he
    unfold paintNet
    rw [hp, he]
  · intro v p img hp hi
    unfold paintNet
    rw [hp, hi]

/-- Witness for C6: two units, the first failing, the second succeeding. -/
theorem batchWave_failure_isolated_witness :
    (exNotesC6.map (fun n => n.id)).Nodup
    ∧ paintWave exResultC6 exNotesC6 exNotesC6 = exNotesC6.map (paintNet exResultC6)
    ∧ paintNet exResultC6 (mkNote 0)
        = { mkNote 0 with isProcessing := false, error := some "绘制失败" }
    ∧ paintNet exResultC6 (mkNote 1)
        = { mkNote 1 with
            finalImage := some "data:image/png;base64,Z",
            stage := Stage.Done,
            isProcessing := false } := by
  have h := batchWave_failure_isolated exResultC6 (fun _ => GenResult.failure "t")
    exNotesC6 (by decide)
  refine ⟨by decide, h.1, ?_, ?_⟩
  · exact h.2.2.2.1 (mkNote 0) "p" "simulated transport error" (by rfl) (by rfl)
  · exact h.2.2.2.2.1 (mkNote 1) "p" "data:image/png;base64,Z" (by rfl) (by rfl)

/-- C7: `processRightBrain` is a pure total function of its inputs: equal
inputs give the identical instruction string (determinism is definitional in
this embedding), the function is defined on every outline, and a falsy
`title` behaves exactly as the named default "未命名笔记", a falsy keyword
set exactly as "abstract concepts" (the named defaults for `summary_context`
and `modules` are the empty string and the empty list, so their substitution
is the identity). -/
theorem promptSynthesizer_pure_total_defaults (d : LeftBrainData) (s : VisualSettings) :
    processRightBrain (some { d with title := "" }) s
        = processRightBrain (some { d with title := "未命名笔记" }) s
    ∧ processRightBrain (some { d with visual_theme_keywords := "" }) s
        = processRightBrain (some { d with visual_theme_keywords := "abstract concepts" }) s
    ∧ ∀ (d2 : LeftBrainData) (s2 : VisualSettings), d2 = d → s2 = s →
        processRightBrain (some d2) s2 = processRightBrain (some d) s := by
  refine ⟨rfl, rfl, ?_⟩
  intro d2 s2 h1 h2
  rw [h1, h2]

/-- Witness for C7 at a concrete outline and settings. -/
theorem promptSynthesizer_pure_total_defaults_witness :
    processRightBrain (some { exOutline with title := "" }) exBadSettings
        = processRightBrain (some { exOutline with title := "未命名笔记" }) exBadSettings
    ∧ processRightBrain (some exOutline) exBadSettings
        = processRightBrain (some exOutline) exBadSettings := by
  have h := promptSynthesizer_pure_total_defaults exOutline exBadSettings
  exact ⟨h.1, h.2.2 exOutline exBadSettings rfl rfl⟩

/-- C8: the backend is selected solely by the configured model identifier:
the inline-part (multimodal completion) path is taken exactly when the
lowercased id contains "gemini", otherwise the prediction-list path runs
`fetchImagen`; and every successful attempt returns a self-contained
`data:<mime>;base64,<payload>` URI. -/
theorem imageRenderer_backend_selection (modelId : String) (env : AttemptEnv) :
    ((attemptOnce modelId env).1 = Backend.inlinePart ↔
        strIncludes (jsToLower modelId) "gemini" = true)
    ∧ (strIncludes (jsToLower modelId) "gemini" = false →
        (attemptOnce modelId env).1 = Backend.predictionList
        ∧ (attemptOnce modelId env).2 = fetchImagen env.imagen)
    ∧ (∀ uri, (attemptOnce modelId env).2 = Except.ok uri →
        ∃ mime data, uri = "data:" ++ mime ++ ";base64," ++ data) := by
  by_cases h : strIncludes (jsToLower modelId) "gemini" = true
  · refine ⟨⟨fun _ => h, fun _ => ?_⟩, fun hff => absurd h (by simp [hff]), ?_⟩
    · unfold attemptOnce
      rw [if_pos h]
    · intro uri huri
      unfold attemptOnce at huri
      rw [if_pos h] at huri
      dsimp only at huri
      cases hg : env.gem with
      | failure e => rw [hg] at huri; exact absurd huri (by simp)
      | response cands =>
        rw [hg] at huri
        dsimp only at huri
        cases hx : extractInlineImage cands with
        | none => rw [hx] at huri; exact absurd huri (by simp)
        | some dm =>
          obtain ⟨dd, mm⟩ := dm
          rw [hx] at huri
          dsimp only at huri
          injection huri with h2
          exact ⟨mm, dd, h2.symm⟩
  · have hf : strIncludes (jsToLower modelId) "gemini" = false := by
      simpa using h
    have h1 : (attemptOnce modelId env).1 = Backend.predictionList := by
      unfold attemptOnce
      rw [if_neg h]
    have h2 : (attemptOnce modelId env).2 = fetchImagen env.imagen := by
      unfold attemptOnce
      rw [if_neg h]
    refine ⟨⟨fun hc => ?_, fun ht => absurd ht h⟩, fun _ => ⟨h1, h2⟩, ?_⟩
    · rw [h1] at hc
      exact absurd hc (by simp)
    · intro uri huri
      rw [h2] at huri
      unfold fetchImagen at huri
      cases hk : env.imagen.apiKey with
      | none => rw [hk] at huri; exact absurd huri (by simp)
      | some key =>
        rw [hk] at huri
        dsimp only at huri
        cases hfo : env.imagen.fetch with
        | netFailure e => rw [hfo] at huri; exact absurd huri (by simp)
        | httpFailure st body => rw [hfo] at huri; exact absurd huri (by simp)
        | okJson preds =>
          rw [hfo] at huri
          dsimp only at huri
          cases hh : preds.head? with
          | none => rw [hh] at huri; exact absurd huri (by simp)
          | some p =>
            rw [hh] at huri
            dsimp only at huri
            by_cases hd : (predImageData p).isEmpty
            · rw [if_pos hd] at huri
              exact absurd huri (by simp)
            · rw [if_neg hd] at huri
              injection huri with h3
              exact ⟨if p.mimeType.isEmpty then "image/png" else p.mimeType,
                     predImageData p, h3.symm⟩

/-- Witness for C8: a model id without the "gemini" marker routes to the
prediction-list backend and yields a data URI. -/
theorem imageRenderer_backend_selection_witness :
    strIncludes (jsToLower "imagen-3.0-generate-002") "gemini" = false
    ∧ (attemptOnce "imagen-3.0-generate-002" exImagenEnv).1 = Backend.predictionList
    ∧ (attemptOnce "imagen-3.0-generate-002" exImagenEnv).2
        = fetchImagen exImagenEnv.imagen
    ∧ (∃ mime data,
        "data:image/png;base64,QQQ" = "data:" ++ mime ++ ";base64," ++ data) := by
  have h := imageRenderer_backend_selection "imagen-3.0-generate-002" exImagenEnv
  refine ⟨by rfl, (h.2.1 (by rfl)).1, (h.2.1 (by rfl)).2, ?_⟩
  exact h.2.2 "data:image/png;base64,QQQ" (by rfl)

set_option maxRecDepth 16384 in
/-- C9 counterexample: the 6-character input of the spec's scenario, against
a received response whose single segment is a 100-character string, does
not fall back to the input: the code never checks that segments come from
the input, so the hallucinated segment passes the length filter. -/
theorem shortInput_split_counterexample :
    utf16Len c9input < 100
    ∧ processSplitBrain (GenResult.success (some c9badResponse)) c9input
        = [c9badSegment]
    ∧ c9badSegment ≠ c9input := by
  refine ⟨by decide, by rfl, by decide⟩

/-- C9 (amended): for every input shorter than 100 UTF-16 units, and every
response whose parsed segments are each no longer than the input (as any
genuine split of the input is), `processSplitBrain` returns exactly the
original input as the single segment, and `handleSplit` creates exactly one
`NoteUnit` from it with `order = 1`. -/
theorem shortInput_split_fallback (resp : GenResult) (text : String)
    (idGen : Nat → String)
    (hshort : utf16Len text < 100)
    (hpieces : ∀ parts, respParsedArr resp = some parts →
        ∀ s, Json.str s ∈ parts → utf16Len s ≤ utf16Len text) :
    processSplitBrain resp text = [text]
    ∧ handleSplitNotes idGen (processSplitBrain resp text)
        = [{ id := idGen 0, order := 1, originalText := text,
             stage := Stage.Organizing, isProcessing := false, struct := none,
             generatedPrompt := none, finalImage := none, error := none }] := by
  have hmain : processSplitBrain resp text = [text] := by
    rw [processSplitBrain_eq]
    cases hpa : respParsedArr resp with
    | none => rfl
    | some parts =>
      have hempty : splitFilter parts = [] := by
        cases hsf : splitFilter parts with
        | nil => rfl
        | cons s rest =>
          exfalso
          have hs : s ∈ splitFilter parts := by
            rw [hsf]; exact List.mem_cons_self s rest
          obtain ⟨hmem, hge⟩ := splitFilter_mem_src parts s hs
          have h1 := hpieces parts hpa s hmem
          have h2 := utf16Len_jsTrim_le s
          omega
      by_cases hlen : parts.length > 0
      · simp [hlen, hempty]
      · simp [hlen]
  refine ⟨hmain, ?_⟩
  rw [hmain]
  rfl

/-- Witness for C9 (amended) at the spec scenario input with a failed call. -/
theorem shortInput_split_fallback_witness :
    utf16Len c9input < 100
    ∧ processSplitBrain (GenResult.failure "transport") c9input = [c9input]
    ∧ handleSplitNotes (fun _ => "u") (processSplitBrain (GenResult.failure "transport") c9input)
        = [{ id := "u", order := 1, originalText := c9input,
             stage := Stage.Organizing, isProcessing := false, struct := none,
             generatedPrompt := none, finalImage := none, error := none }] := by
  have h := shortInput_split_fallback (GenResult.failure "transport") c9input
    (fun _ => "u") (by decide) (fun parts hp => nomatch hp)
  exact ⟨by decide, h.1, h.2⟩

/-- C10: `processRightBrain` never throws outside the stated domain: a
null/undefined outline returns the fixed string "Error: No data provided",
and a style id matching no entry of `STYLES` behaves exactly as the first
style of the table ("healing"). -/
theorem rightBrain_nullData_and_unknownStyle :
    (∀ s, processRightBrain none s = "Error: No data provided")
    ∧ ∀ (d : LeftBrainData) (s : VisualSettings),
        STYLES.find? (fun st => st.id == s.styleId) = none →
        processRightBrain (some d) s
          = processRightBrain (some d) { s with styleId := "healing" } := by
  constructor
  · intro s
    rfl
  · intro d s h
    unfold processRightBrain
    dsimp only
    rw [h]
    rfl

/-- Witness for C10 at the unknown style id "cyber". -/
theorem rightBrain_nullData_and_unknownStyle_witness :
    processRightBrain none exBadSettings = "Error: No data provided"
    ∧ processRightBrain (some exOutline) exBadSettings
        = processRightBrain (some exOutline) { exBadSettings with styleId := "healing" } := by
  have h := rightBrain_nullData_and_unknownStyle
  exact ⟨h.1 exBadSettings, h.2 exOutline exBadSettings (by rfl)⟩
